import Mathlib

/-!
Shallow embedding of the Jeopardy Live server (`server.js`): the room state
machine, buzz arbitration, room registry and code generator.  JS `Map`s are
modelled as insertion-ordered association lists with unique keys (`mapGet`,
`mapSet`, `mapDelete` mirror `Map.get`, `Map.set`, `Map.delete`).  Socket
emissions are modelled as a list of (target, event) pairs so that silent
no-ops can be distinguished from error signals.  Randomness (board building,
code draws) is passed in as explicit parameters.
-/

namespace Jeopardy

/-- Winner record stored in `room.buzzer.winner`: `{ name, teamIndex }`. -/
structure Winner where
  name : String
  teamIndex : Nat
deriving DecidableEq, Repr

/-- Buzzer state `room.buzzer = { locked, winner }`. -/
structure Buzzer where
  locked : Bool
  winner : Option Winner
deriving DecidableEq, Repr

/-- Active clue `room.active = { catIdx, rowIdx, showing }`; `showing` is
the reveal state, `"q"` for question, `"a"` for answer. -/
structure ActiveClue where
  catIdx : Nat
  rowIdx : Nat
  showing : String
deriving DecidableEq, Repr

/-- Turn state `room.turn = { teamIndex }`. -/
structure Turn where
  teamIndex : Nat
deriving DecidableEq, Repr

/-- Team record `{ name, score }`. -/
structure Team where
  name : String
  score : Int
deriving DecidableEq, Repr

/-- Player record stored in `room.players`: `{ id, name, teamIndex }`. -/
structure Player where
  id : String
  name : String
  teamIndex : Nat
deriving DecidableEq, Repr

/-- One board cell `{ value, q, a, used, dd }`. -/
structure Clue where
  value : Int
  q : String
  a : String
  used : Bool
  dd : Bool
deriving DecidableEq, Repr

/-- One board category `{ name, clues }`. -/
structure Category where
  name : String
  clues : List Clue
deriving DecidableEq, Repr

/-- Final-Jeopardy record `{ category, q, a }`. -/
structure FinalClue where
  category : String
  q : String
  a : String
deriving DecidableEq, Repr

/-- Board produced by the board provider: `{ title, categories, final }`. -/
structure Game where
  title : String
  categories : List Category
  final : FinalClue
deriving DecidableEq, Repr

/-- Room state, mirroring the object built in `host:createRoom`. -/
structure Room where
  code : String
  hostSocketId : String
  hostName : String
  mode : String
  players : List (String × Player)
  teams : List Team
  usedQuestionIds : List Nat
  game : Game
  active : Option ActiveClue
  turn : Turn
  buzzer : Buzzer
deriving DecidableEq, Repr

/-- Emission target: a single socket (`socket.emit`) or a room channel
(`io.to(code).emit`). -/
inductive Target where
  | conn (id : String)
  | roomCast (code : String)
deriving DecidableEq, Repr

/-- Socket events emitted by the server handlers. -/
inductive SEvent where
  | roomUpdate
  | roomError (msg : String)
  | playerJoined (code : String)
  | roomCreated (code : String)
  | roomEnded
deriving DecidableEq, Repr

/-- JS `Map.get`: value at the (unique) key, if present. -/
def mapGet {β : Type} : List (String × β) → String → Option β
  | [], _ => none
  | (k0, v) :: rest, k => if k0 = k then some v else mapGet rest k

/-- JS `Map.set`: replace in place when the key exists (keeping insertion
order), otherwise append at the end. -/
def mapSet {β : Type} : List (String × β) → String → β → List (String × β)
  | [], k, v => [(k, v)]
  | (k0, v0) :: rest, k, v =>
      if k0 = k then (k, v) :: rest else (k0, v0) :: mapSet rest k v

/-- JS `Map.delete`: drop the entry at the key, if present. -/
def mapDelete {β : Type} : List (String × β) → String → List (String × β)
  | [], _ => []
  | (k0, v0) :: rest, k =>
      if k0 = k then rest else (k0, v0) :: mapDelete rest k

/-- Modify the element at an index, identity when out of range (mirrors the
guarded JS mutations `if (clue) clue.used = true` etc.). -/
def modifyAt {α : Type} : List α → Nat → (α → α) → List α
  | [], _, _ => []
  | x :: xs, 0, f => f x :: xs
  | x :: xs, n + 1, f => x :: modifyAt xs n f

/-- The `clampTeam` helper: clamp a team index into `[0, 2]`. -/
def clampTeam (n : Int) : Nat := (max 0 (min 2 n)).toNat

/-- JS `x || d` on an optional string: the default replaces a missing or
empty string. -/
def orDefault (s : Option String) (d : String) : String :=
  match s with
  | none => d
  | some str => if str = "" then d else str

/-- The player-name normalisation in `player:join`:
`(playerName?.trim() || "Player").slice(0, 25)`. -/
def normPlayerName (s : Option String) : String :=
  (orDefault (s.map String.trim) "Player").take 25

/-- The clue lookup `room.game.categories?.[catIdx]?.clues?.[rowIdx]`. -/
def lookupClue (g : Game) (catIdx rowIdx : Nat) : Option Clue :=
  (g.categories.get? catIdx).bind fun cat => cat.clues.get? rowIdx

/-- The room object constructed in `host:createRoom` (board passed in from
the provider, code from the generator). -/
def initRoom (hostId : String) (hostName : Option String) (mode : Option String)
    (code : String) (game : Game) : Room :=
  { code := code
    hostSocketId := hostId
    hostName := (orDefault hostName "Host").take 30
    mode := if mode = some "TURNS" then "TURNS" else "BUZZER"
    players := []
    teams := [⟨"Team 1", 0⟩, ⟨"Team 2", 0⟩, ⟨"Team 3", 0⟩]
    usedQuestionIds := []
    game := game
    active := none
    turn := ⟨0⟩
    buzzer := ⟨false, none⟩ }

/-- The `host:pickClue` handler: host-gated; rejects an out-of-range or used
clue; on success opens the clue showing the question and resets the buzzer,
then broadcasts an update. -/
def pickClueH (actor : String) (room : Room) (catIdx rowIdx : Nat) :
    Room × List (Target × SEvent) :=
  if actor = room.hostSocketId then
    match lookupClue room.game catIdx rowIdx with
    | none => (room, [])
    | some clue =>
      if clue.used then (room, [])
      else
        ({ room with active := some ⟨catIdx, rowIdx, "q"⟩
                     buzzer := ⟨false, none⟩ },
         [(Target.roomCast room.code, SEvent.roomUpdate)])
  else (room, [])

/-- State part of `host:pickClue`. -/
def pickClue (actor : String) (room : Room) (catIdx rowIdx : Nat) : Room :=
  (pickClueH actor room catIdx rowIdx).1

/-- The `host:showAnswer` handler: host-gated; no-op without an active clue;
otherwise flips the reveal state to `"a"`. -/
def showAnswerH (actor : String) (room : Room) : Room × List (Target × SEvent) :=
  if actor = room.hostSocketId then
    match room.active with
    | none => (room, [])
    | some ac =>
        ({ room with active := some { ac with showing := "a" } },
         [(Target.roomCast room.code, SEvent.roomUpdate)])
  else (room, [])

/-- State part of `host:showAnswer`. -/
def showAnswer (actor : String) (room : Room) : Room :=
  (showAnswerH actor room).1

/-- The `host:closeClue` handler: host-gated; when a clue is active and
`markUsed` holds, flags that clue used; always clears `active`. -/
def closeClueH (actor : String) (room : Room) (markUsed : Bool) :
    Room × List (Target × SEvent) :=
  if actor = room.hostSocketId then
    let g :=
      match room.active, markUsed with
      | some ac, true =>
          { room.game with
              categories :=
                modifyAt room.game.categories ac.catIdx (fun cat =>
                  { cat with clues := (modifyAt cat.clues ac.rowIdx
                      (fun cl => { cl with used := true })) }) }
      | _, _ => room.game
    ({ room with game := g, active := none },
     [(Target.roomCast room.code, SEvent.roomUpdate)])
  else (room, [])

/-- State part of `host:closeClue`. -/
def closeClue (actor : String) (room : Room) (markUsed : Bool) : Room :=
  (closeClueH actor room markUsed).1

/-- The `host:score` handler: host-gated; adds the delta to the clamped
team's score. -/
def scoreH (actor : String) (room : Room) (teamIndex delta : Int) :
    Room × List (Target × SEvent) :=
  if actor = room.hostSocketId then
    ({ room with teams := modifyAt room.teams (clampTeam teamIndex)
                   (fun t => { t with score := t.score + delta }) },
     [(Target.roomCast room.code, SEvent.roomUpdate)])
  else (room, [])

/-- State part of `host:score`. -/
def scoreTeam (actor : String) (room : Room) (teamIndex delta : Int) : Room :=
  (scoreH actor room teamIndex delta).1

/-- The `host:renameTeam` handler: host-gated; replaces the clamped team's
name with `(name || "Team N").slice(0, 20)`. -/
def renameTeamH (actor : String) (room : Room) (teamIndex : Int) (name : String) :
    Room × List (Target × SEvent) :=
  if actor = room.hostSocketId then
    let idx := clampTeam teamIndex
    ({ room with teams := modifyAt room.teams idx (fun t =>
         { t with name := (if name = "" then "Team " ++ toString (idx + 1)
                           else name).take 20 }) },
     [(Target.roomCast room.code, SEvent.roomUpdate)])
  else (room, [])

/-- State part of `host:renameTeam`. -/
def renameTeam (actor : String) (room : Room) (teamIndex : Int) (name : String) : Room :=
  (renameTeamH actor room teamIndex name).1

/-- The `host:setTurn` handler: host-gated; sets the clamped turn index. -/
def setTurnH (actor : String) (room : Room) (teamIndex : Int) :
    Room × List (Target × SEvent) :=
  if actor = room.hostSocketId then
    ({ room with turn := ⟨clampTeam teamIndex⟩ },
     [(Target.roomCast room.code, SEvent.roomUpdate)])
  else (room, [])

/-- State part of `host:setTurn`. -/
def setTurn (actor : String) (room : Room) (teamIndex : Int) : Room :=
  (setTurnH actor room teamIndex).1

/-- The `host:nextTurn` handler: host-gated; advances the turn modulo 3. -/
def nextTurnH (actor : String) (room : Room) : Room × List (Target × SEvent) :=
  if actor = room.hostSocketId then
    ({ room with turn := ⟨(room.turn.teamIndex + 1) % 3⟩ },
     [(Target.roomCast room.code, SEvent.roomUpdate)])
  else (room, [])

/-- State part of `host:nextTurn`. -/
def nextTurn (actor : String) (room : Room) : Room :=
  (nextTurnH actor room).1

/-- The `player:buzz` handler's state transition: no-op unless the room is in
BUZZER mode with an open clue, an unlocked buzzer, and a registered player;
otherwise locks the buzzer and records the winner from the player's
registered identity at that moment. -/
def buzz (actor : String) (room : Room) : Room :=
  if room.mode ≠ "BUZZER" then room
  else if room.active = none then room
  else if room.buzzer.locked then room
  else
    match mapGet room.players actor with
    | none => room
    | some p => { room with buzzer := ⟨true, some ⟨p.name, p.teamIndex⟩⟩ }

/-- The `host:unlockBuzzer` handler: host-gated; unconditionally resets the
buzzer. -/
def unlockBuzzerH (actor : String) (room : Room) : Room × List (Target × SEvent) :=
  if actor = room.hostSocketId then
    ({ room with buzzer := ⟨false, none⟩ },
     [(Target.roomCast room.code, SEvent.roomUpdate)])
  else (room, [])

/-- State part of `host:unlockBuzzer`. -/
def unlockBuzzer (actor : String) (room : Room) : Room :=
  (unlockBuzzerH actor room).1

/-- The `host:newRound` handler: host-gated; installs the freshly built board
(passed in from the provider), clears the active clue, resets the buzzer, and
zeroes every team score unless `keepScores`. -/
def newRoundH (actor : String) (room : Room) (keepScores : Bool) (newGame : Game) :
    Room × List (Target × SEvent) :=
  if actor = room.hostSocketId then
    let r1 := { room with game := newGame, active := none, buzzer := ⟨false, none⟩ }
    (if keepScores then r1
     else { r1 with teams := r1.teams.map (fun t => { t with score := 0 }) },
     [(Target.roomCast room.code, SEvent.roomUpdate)])
  else (room, [])

/-- State part of `host:newRound`. -/
def newRound (actor : String) (room : Room) (keepScores : Bool) (newGame : Game) : Room :=
  (newRoundH actor room keepScores newGame).1

/-- Room-level state transition of `player:join` on a live room: registers
(or overwrites) the player entry for the connection. -/
def joinPlayer (actor : String) (room : Room) (playerName : Option String)
    (teamIndex : Int) : Room :=
  { room with players := (mapSet room.players actor
      ⟨actor, normPlayerName playerName, clampTeam teamIndex⟩) }

/-- Player removal on disconnect. -/
def removePlayer (actor : String) (room : Room) : Room :=
  { room with players := mapDelete room.players actor }

/-- Registry-level `player:join` handler: a code that does not resolve emits
`room:error` with "Room not found." to the requester only and changes
nothing; otherwise the player is registered and the room broadcast. -/
def joinH (reg : List (String × Room)) (actor : String) (code : String)
    (playerName : Option String) (teamIndex : Int) :
    List (String × Room) × List (Target × SEvent) :=
  match mapGet reg code with
  | none => (reg, [(Target.conn actor, SEvent.roomError "Room not found.")])
  | some room =>
      let room2 := joinPlayer actor room playerName teamIndex
      (mapSet reg code room2,
       [(Target.roomCast code, SEvent.roomUpdate),
        (Target.conn actor, SEvent.playerJoined code)])

/-- The snapshot `publicState` broadcasts: exactly
`{code, hostName, mode, teams, players, game, active, turn, buzzer}`. -/
structure PublicState where
  code : String
  hostName : String
  mode : String
  teams : List Team
  players : List Player
  game : Game
  active : Option ActiveClue
  turn : Turn
  buzzer : Buzzer
deriving DecidableEq, Repr

/-- The `publicState` projection sent to clients. -/
def publicState (room : Room) : PublicState :=
  { code := room.code
    hostName := room.hostName
    mode := room.mode
    teams := room.teams
    players := room.players.map Prod.snd
    game := room.game
    active := room.active
    turn := room.turn
    buzzer := room.buzzer }

/-- The `makeCode` alphabet, excluding visually ambiguous characters. -/
def codeChars : List Char := "ABCDEFGHJKLMNPQRSTUVWXYZ23456789".toList

/-- `makeCode`: five independent draws from the 32-character alphabet. -/
def makeCode (draws : Fin 5 → Fin 32) : String :=
  String.mk (List.ofFn fun i : Fin 5 => codeChars.getD (draws i).val 'A')

/-- The `host:createRoom` retry loop `while (rooms.has(code)) code = makeCode()`,
with an explicit iteration budget: step `i` draws `draws i`; `none` means the
budget elapsed without leaving the loop. -/
def genLoop (existing : String → Bool) (draws : Nat → Fin 5 → Fin 32) :
    Nat → Nat → Option String
  | _, 0 => none
  | i, fuel + 1 =>
      let c := makeCode (draws i)
      if existing c then genLoop existing draws (i + 1) fuel else some c

/-! ### Concrete sample data (small but well-formed instances) -/

/-- A fresh, unused sample clue. -/
def sampleClue : Clue := ⟨100, "Q", "A", false, false⟩

/-- A small sample board. -/
def sampleGame : Game :=
  { title := "Jeopardy Live"
    categories := [⟨"Math", [sampleClue, sampleClue]⟩, ⟨"Science", [sampleClue]⟩]
    final := ⟨"Final Jeopardy", "FQ", "FA"⟩ }

/-- A sample BUZZER room hosted by connection `"h"` with two players. -/
def sampleRoom : Room :=
  { code := "ABCDE"
    hostSocketId := "h"
    hostName := "Host"
    mode := "BUZZER"
    players := [("p1", ⟨"p1", "Alice", 1⟩), ("p2", ⟨"p2", "Bob", 2⟩)]
    teams := [⟨"Team 1", 0⟩, ⟨"Team 2", 0⟩, ⟨"Team 3", 0⟩]
    usedQuestionIds := []
    game := sampleGame
    active := none
    turn := ⟨0⟩
    buzzer := ⟨false, none⟩ }

/-- The sample room with clue (0,0) open and the buzzer unlocked. -/
def roomWithActive : Room := { sampleRoom with active := some ⟨0, 0, "q"⟩ }

/-! ### Helper lemmas about the map and list primitives -/

theorem mapGet_mapSet_self {β : Type} (ps : List (String × β)) (k : String) (v : β) :
    mapGet (mapSet ps k v) k = some v := by
  induction ps with
  | nil => simp [mapSet, mapGet]
  | cons hd tl ih =>
    obtain ⟨k0, v0⟩ := hd
    by_cases h : k0 = k
    · simp [mapSet, mapGet, h]
    · simp [mapSet, mapGet, h, ih]

theorem length_mapSet_of_mem {β : Type} (ps : List (String × β)) (k : String) (v : β)
    (h : mapGet ps k ≠ none) : (mapSet ps k v).length = ps.length := by
  induction ps with
  | nil => simp [mapGet] at h
  | cons hd tl ih =>
    obtain ⟨k0, v0⟩ := hd
    by_cases hk : k0 = k
    · simp [mapSet, hk]
    · simp only [mapGet, if_neg hk] at h
      simp [mapSet, hk, ih h]

theorem modifyAt_getElem?_self {α : Type} (l : List α) (i : Nat) (f : α → α) :
    (modifyAt l i f)[i]? = (l[i]?).map f := by
  induction l generalizing i with
  | nil => simp [modifyAt]
  | cons x xs ih =>
    cases i with
    | zero => simp [modifyAt]
    | succ n => simpa [modifyAt] using ih n

theorem modifyAt_getElem?_ne {α : Type} (l : List α) (i j : Nat) (f : α → α) (h : j ≠ i) :
    (modifyAt l i f)[j]? = l[j]? := by
  induction l generalizing i j with
  | nil => simp [modifyAt]
  | cons x xs ih =>
    cases i with
    | zero =>
      cases j with
      | zero => exact absurd rfl h
      | succ m => simp [modifyAt]
    | succ n =>
      cases j with
      | zero => simp [modifyAt]
      | succ m =>
        simpa [modifyAt] using ih n m (fun hh => h (by rw [hh]))

theorem map_score_zero (l : List Team) :
    (l.map (fun t => { t with score := 0 })).map Team.score =
      l.map (fun _ => (0 : Int)) := by
  induction l with
  | nil => rfl
  | cons t ts ih => simpa using ih

theorem buzz_of_locked (room : Room) (actor : String) (h : room.buzzer.locked = true) :
    buzz actor room = room := by
  simp [buzz, h]

theorem foldl_buzz_of_locked (room : Room) (h : room.buzzer.locked = true)
    (l : List String) : l.foldl (fun r a => buzz a r) room = room := by
  induction l with
  | nil => rfl
  | cons a t ih => simp [List.foldl_cons, buzz_of_locked room a h, ih]

/-! ### Claims -/

/-- Claim C1: a buzz is a no-op whenever the room is not in BUZZER mode, no
clue is active, the buzzer is already locked, or the connection is not a
registered player; otherwise the first valid buzz locks the buzzer and
records the buzzing player's registered name and team index as winner, and
every later buzz in the same window (any sequence of further buzzes, before
the buzzer is reset) leaves the state unchanged, so exactly one winner is set
per window. -/
theorem buzz_first_wins (room : Room) (actor : String) :
    ((room.mode ≠ "BUZZER" ∨ room.active = none ∨ room.buzzer.locked = true ∨
        mapGet room.players actor = none) → buzz actor room = room)
    ∧ ∀ p : Player, room.mode = "BUZZER" → room.active ≠ none →
        room.buzzer.locked = false → mapGet room.players actor = some p →
        buzz actor room = { room with buzzer := ⟨true, some ⟨p.name, p.teamIndex⟩⟩ }
        ∧ ∀ laterBuzzes : List String,
            laterBuzzes.foldl (fun r a => buzz a r) (buzz actor room) = buzz actor room := by
  constructor
  · rintro (h | h | h | h)
    · simp [buzz, h]
    · simp [buzz, h]
    · exact buzz_of_locked room actor h
    · simp [buzz, h]
  · intro p hm ha hl hp
    have hres : buzz actor room =
        { room with buzzer := ⟨true, some ⟨p.name, p.teamIndex⟩⟩ } := by
      simp [buzz, hm, ha, hl, hp]
    refine ⟨hres, fun laterBuzzes => ?_⟩
    apply foldl_buzz_of_locked
    rw [hres]

/-- Claim C1 witness: in the sample room with an open clue, Alice's buzz is
accepted and recorded. -/
theorem buzz_first_wins_witness :
    buzz "p1" roomWithActive =
      { roomWithActive with buzzer := ⟨true, some ⟨"Alice", 1⟩⟩ } :=
  ((buzz_first_wins roomWithActive "p1").2 ⟨"p1", "Alice", 1⟩ rfl (by decide)
    rfl (by decide)).1

/-- Claim C2 counterexample: with clue (0,0) already active, the host's
`pickClue(0,1)` is NOT rejected — it overwrites the active clue, so the claim
that an existing `activeClue` causes rejection is false. -/
theorem pickClue_not_rejected_when_active :
    pickClue "h" roomWithActive 0 1 ≠ roomWithActive ∧
    (pickClue "h" roomWithActive 0 1).active = some ⟨0, 1, "q"⟩ := by
  decide

/-- Claim C2 (amended): the host's pickClue is rejected as a no-op exactly
when the indices are out of bounds or the addressed clue is used; an existing
`activeClue` does not cause rejection — it is simply overwritten.  On success
the operation sets `active = {catIdx, rowIdx, "q"}` and resets the buzzer to
`{locked := false, winner := none}`, for every prior buzzer and active-clue
state. -/
theorem pickClue_spec (room : Room) (actor : String) (catIdx rowIdx : Nat)
    (h : actor = room.hostSocketId) :
    (lookupClue room.game catIdx rowIdx = none →
        pickClue actor room catIdx rowIdx = room)
    ∧ (∀ clue, lookupClue room.game catIdx rowIdx = some clue → clue.used = true →
        pickClue actor room catIdx rowIdx = room)
    ∧ (∀ clue, lookupClue room.game catIdx rowIdx = some clue → clue.used = false →
        pickClue actor room catIdx rowIdx =
          { room with active := some ⟨catIdx, rowIdx, "q"⟩
                      buzzer := ⟨false, none⟩ }) := by
  refine ⟨fun hlk => ?_, fun clue hlk hu => ?_, fun clue hlk hu => ?_⟩
  · simp [pickClue, pickClueH, h, hlk]
  · simp [pickClue, pickClueH, h, hlk, hu]
  · simp [pickClue, pickClueH, h, hlk, hu]

/-- Claim C2 witness: the host opens fresh clue (0,0) in the sample room. -/
theorem pickClue_spec_witness :
    pickClue "h" sampleRoom 0 0 =
      { sampleRoom with active := some ⟨0, 0, "q"⟩, buzzer := ⟨false, none⟩ } :=
  (pickClue_spec sampleRoom "h" 0 0 rfl).2.2 sampleClue (by decide) rfl

/-- Claim C3: every host-gated handler invoked by a connection other than the
room's host leaves the room unchanged and emits nothing at all (in
particular, no error event). -/
theorem nonhost_silent_noop (room : Room) (actor : String)
    (h : actor ≠ room.hostSocketId) :
    (∀ c r, pickClueH actor room c r = (room, []))
    ∧ showAnswerH actor room = (room, [])
    ∧ (∀ mk, closeClueH actor room mk = (room, []))
    ∧ (∀ ti d, scoreH actor room ti d = (room, []))
    ∧ (∀ ti nm, renameTeamH actor room ti nm = (room, []))
    ∧ (∀ ti, setTurnH actor room ti = (room, []))
    ∧ nextTurnH actor room = (room, [])
    ∧ unlockBuzzerH actor room = (room, [])
    ∧ (∀ ks g, newRoundH actor room ks g = (room, [])) := by
  refine ⟨?_, ?_, ?_, ?_, ?_, ?_, ?_, ?_, ?_⟩ <;> intros <;>
    simp [pickClueH, showAnswerH, closeClueH, scoreH, renameTeamH, setTurnH,
      nextTurnH, unlockBuzzerH, newRoundH, h]

/-- Claim C3 witness: a non-host connection's score request on the sample
room changes nothing and emits nothing. -/
theorem nonhost_silent_noop_witness :
    scoreH "p1" sampleRoom 0 500 = (sampleRoom, []) :=
  (nonhost_silent_noop sampleRoom "p1" (by decide)).2.2.2.1 0 500

/-- Claim C4: `newRound` by the host keeps all teams (hence all scores)
unchanged when `keepScores` is true, zeroes every score when it is false,
and in both cases clears the active clue and resets the buzzer. -/
theorem newRound_scores (room : Room) (actor : String) (g : Game)
    (h : actor = room.hostSocketId) :
    (newRound actor room true g).teams = room.teams
    ∧ (newRound actor room false g).teams.map Team.score =
        room.teams.map (fun _ => 0)
    ∧ (∀ ks, (newRound actor room ks g).active = none
        ∧ (newRound actor room ks g).buzzer = ⟨false, none⟩) := by
  refine ⟨?_, ?_, fun ks => ?_⟩
  · simp [newRound, newRoundH, h]
  · have hteams : (newRound actor room false g).teams =
        room.teams.map (fun t => { t with score := 0 }) := by
      simp [newRound, newRoundH, h]
    rw [hteams, map_score_zero]
  · cases ks <;> simp [newRound, newRoundH, h]

/-- Claim C4 witness: `newRound` on the sample room (with a team on 300
points) keeps that score with `keepScores = true`. -/
theorem newRound_scores_witness :
    (newRound "h" { sampleRoom with
        teams := [⟨"Team 1", 300⟩, ⟨"Team 2", 0⟩, ⟨"Team 3", 0⟩] } true
        sampleGame).teams =
      [⟨"Team 1", 300⟩, ⟨"Team 2", 0⟩, ⟨"Team 3", 0⟩] :=
  (newRound_scores { sampleRoom with
      teams := [⟨"Team 1", 300⟩, ⟨"Team 2", 0⟩, ⟨"Team 3", 0⟩] } "h"
      sampleGame rfl).1

/-- Claim C5 counterexample: renaming team 0 to the string `" "`, which
consists only of whitespace (so it is empty after trimming and the claim
demands the default `"Team 1"`), stores `" "` verbatim — the supplied name is
neither trimmed nor replaced by the default. -/
theorem renameTeam_no_trim :
    ((renameTeam "h" sampleRoom 0 " ").teams[0]?).map Team.name = some " "
    ∧ (∀ c ∈ (" " : String).toList, c.isWhitespace = true)
    ∧ (" " : String) ≠ "Team 1" := by
  decide

/-- Claim C5 (amended): the host's renameTeam sets the clamped team's name to
the supplied string truncated to 20 characters, with no whitespace trimming;
the default `"Team N"` is used exactly when the supplied name is the empty
string.  Other teams are untouched. -/
theorem renameTeam_spec (room : Room) (actor : String) (ti : Int) (nm : String)
    (t : Team) (h : actor = room.hostSocketId)
    (ht : room.teams[clampTeam ti]? = some t) :
    (renameTeam actor room ti nm).teams[clampTeam ti]? =
      some { t with name := (if nm = "" then "Team " ++ toString (clampTeam ti + 1)
                             else nm).take 20 }
    ∧ ∀ j, j ≠ clampTeam ti →
        (renameTeam actor room ti nm).teams[j]? = room.teams[j]? := by
  have hteams : (renameTeam actor room ti nm).teams =
      modifyAt room.teams (clampTeam ti) (fun t =>
        { t with name := (if nm = "" then "Team " ++ toString (clampTeam ti + 1)
                          else nm).take 20 }) := by
    simp [renameTeam, renameTeamH, h]
  constructor
  · rw [hteams, modifyAt_getElem?_self, ht]
    rfl
  · intro j hj
    rw [hteams, modifyAt_getElem?_ne _ _ _ _ hj]

/-- Claim C5 witness: the host renames team 1 to `"Reds"` in the sample
room. -/
theorem renameTeam_spec_witness :
    (renameTeam "h" sampleRoom 1 "Reds").teams[clampTeam 1]? =
      some { (⟨"Team 2", 0⟩ : Team) with
               name := (if "Reds" = "" then "Team " ++ toString (clampTeam 1 + 1)
                        else "Reds").take 20 } :=
  (renameTeam_spec sampleRoom "h" 1 "Reds" ⟨"Team 2", 0⟩ rfl (by decide)).1

theorem makeCode_length (draws : Fin 5 → Fin 32) : (makeCode draws).length = 5 := by
  simp [makeCode, String.length, List.length_ofFn]

theorem makeCode_mem_alphabet (draws : Fin 5 → Fin 32) :
    ∀ ch ∈ (makeCode draws).toList, ch ∈ codeChars := by
  have hall : ∀ k : Fin 32, codeChars.getD k.val 'A' ∈ codeChars := by decide
  intro ch hch
  have hch' : ch ∈ List.ofFn (fun i : Fin 5 => codeChars.getD (draws i).val 'A') := hch
  obtain ⟨i, hi⟩ := (List.mem_ofFn _ _).1 hch'
  exact hi ▸ hall (draws i)

theorem genLoop_exhausted (existing : String → Bool) (draws : Nat → Fin 5 → Fin 32)
    (hex : ∀ d : Fin 5 → Fin 32, existing (makeCode d) = true) :
    ∀ fuel i, genLoop existing draws i fuel = none := by
  intro fuel
  induction fuel with
  | zero => intro i; rfl
  | succ m ih =>
    intro i
    simpa [genLoop, hex (draws i)] using ih (i + 1)

theorem genLoop_success (existing : String → Bool) (draws : Nat → Fin 5 → Fin 32) :
    ∀ fuel i c, genLoop existing draws i fuel = some c →
      existing c = false ∧ ∃ d, c = makeCode d := by
  intro fuel
  induction fuel with
  | zero => intro i c hc; exact absurd hc (by simp [genLoop])
  | succ m ih =>
    intro i c hc
    by_cases he : existing (makeCode (draws i)) = true
    · exact ih (i + 1) c (by simpa [genLoop, he] using hc)
    · have hc' : makeCode (draws i) = c := by simpa [genLoop, he] using hc
      subst hc'
      exact ⟨by simpa using he, draws i, rfl⟩

/-- Claim C6 counterexample: the claim fails twice on concrete inputs.
First, the alphabet does not exclude `L`: the draw hitting index 10 of the
alphabet produces the code `"LLLLL"`.  Second, on a pathologically exhausted
code space (every code already taken) the createRoom retry loop never leaves
the loop no matter how many iterations it is granted — a silent hang with no
fatal configuration error, contradicting the claimed termination. -/
theorem codegen_claim_fails :
    'L' ∈ (makeCode fun _ => (10 : Fin 32)).toList
    ∧ ¬ ∃ fuel : Nat,
        (genLoop (fun _ => true) (fun _ _ => 0) 0 fuel).isSome = true := by
  constructor
  · decide
  · rintro ⟨fuel, hf⟩
    rw [genLoop_exhausted (fun _ => true) (fun _ _ => 0) (fun _ => rfl) fuel 0] at hf
    exact Bool.noConfusion hf

/-- Claim C6 (amended): generated codes have fixed length 5 and draw every
character from the 32-character alphabet `A-Z` without `I` and `O` plus
`2-9`; this excludes 0, O, 1 and I but does contain `L`.  The retry loop only
ever returns a code not in the existing set; however, when the code space is
exhausted the loop never terminates — it hangs silently rather than raising a
fatal configuration error. -/
theorem makeCode_genLoop_spec (existing : String → Bool)
    (draws : Nat → Fin 5 → Fin 32) (i fuel : Nat) :
    (∀ c, genLoop existing draws i fuel = some c →
        existing c = false ∧ c.length = 5 ∧ ∀ ch ∈ c.toList, ch ∈ codeChars)
    ∧ (∀ ch ∈ codeChars, ch ∉ ['0', 'O', '1', 'I'])
    ∧ ('L' ∈ codeChars)
    ∧ ((∀ d : Fin 5 → Fin 32, existing (makeCode d) = true) →
        genLoop existing draws i fuel = none) := by
  refine ⟨fun c hc => ?_, by decide, by decide,
    fun hex => genLoop_exhausted existing draws hex fuel i⟩
  obtain ⟨hfree, d, hd⟩ := genLoop_success existing draws fuel i c hc
  subst hd
  exact ⟨hfree, makeCode_length d, makeCode_mem_alphabet d⟩

/-- Claim C6 witness: with no codes taken, a single iteration yields the
concrete code "AAAAA", unused, of length 5, drawn from the alphabet. -/
theorem makeCode_genLoop_spec_witness :
    (fun _ : String => false) (makeCode fun _ => 0) = false
    ∧ (makeCode fun _ => 0).length = 5
    ∧ ∀ ch ∈ (makeCode fun _ => 0).toList, ch ∈ codeChars :=
  (makeCode_genLoop_spec (fun _ => false) (fun _ _ => 0) 0 1).1
    (makeCode fun _ => 0) (by decide)

/-- Claim C7: a join whose room code does not resolve emits exactly one
`room:error` event carrying the message "Room not found." to the requesting
connection only, and leaves the registry (hence every room and every player
list) unchanged. -/
theorem join_not_found (reg : List (String × Room)) (actor code : String)
    (playerName : Option String) (ti : Int) (h : mapGet reg code = none) :
    joinH reg actor code playerName ti =
      (reg, [(Target.conn actor, SEvent.roomError "Room not found.")]) := by
  simp [joinH, h]

/-- Claim C7 witness: joining code "ZZZZZ" against an empty registry. -/
theorem join_not_found_witness :
    joinH [] "s1" "ZZZZZ" (some "Al") 0 =
      ([], [(Target.conn "s1", SEvent.roomError "Room not found.")]) :=
  join_not_found [] "s1" "ZZZZZ" (some "Al") 0 rfl

/-- Claim C8: the broadcast snapshot is a function of exactly the nine public
fields {code, hostName, mode, teams, players, board, activeClue, turn,
buzzer}: changing the room's host connection identifier or its used-question
bookkeeping in any way leaves the snapshot identical, so neither is ever
exposed. -/
theorem publicState_hides_internals (room : Room) (hid : String) (uq : List Nat) :
    publicState { room with hostSocketId := hid, usedQuestionIds := uq } =
      publicState room :=
  rfl

/-- One step of the room state machine: every operation of the claim,
dispatched through the handlers above. -/
inductive Op where
  | pickOp (actor : String) (catIdx rowIdx : Nat)
  | showOp (actor : String)
  | closeOp (actor : String) (markUsed : Bool)
  | buzzOp (actor : String)
  | unlockOp (actor : String)
  | scoreOp (actor : String) (ti delta : Int)
  | renameOp (actor : String) (ti : Int) (nm : String)
  | setTurnOp (actor : String) (ti : Int)
  | nextTurnOp (actor : String)
  | newRoundOp (actor : String) (ks : Bool) (g : Game)
  | joinOp (pid : String) (nm : Option String) (ti : Int)
  | removeOp (pid : String)

/-- Apply one operation to a room. -/
def applyOp (room : Room) : Op → Room
  | .pickOp a c r => pickClue a room c r
  | .showOp a => showAnswer a room
  | .closeOp a mk => closeClue a room mk
  | .buzzOp a => buzz a room
  | .unlockOp a => unlockBuzzer a room
  | .scoreOp a ti d => scoreTeam a room ti d
  | .renameOp a ti nm => renameTeam a room ti nm
  | .setTurnOp a ti => setTurn a room ti
  | .nextTurnOp a => nextTurn a room
  | .newRoundOp a ks g => newRound a room ks g
  | .joinOp p nm ti => joinPlayer p room nm ti
  | .removeOp p => removePlayer p room

theorem buzzer_after_applyOp (room : Room) (op : Op) :
    (applyOp room op).buzzer = room.buzzer
    ∨ (applyOp room op).buzzer = ⟨false, none⟩
    ∨ ∃ w, (applyOp room op).buzzer = ⟨true, some w⟩ := by
  cases op with
  | pickOp a c r =>
    by_cases h : a = room.hostSocketId
    · cases hlk : lookupClue room.game c r with
      | none => simp [applyOp, pickClue, pickClueH, h, hlk]
      | some clue =>
        by_cases hu : clue.used = true
        · simp [applyOp, pickClue, pickClueH, h, hlk, hu]
        · simp [applyOp, pickClue, pickClueH, h, hlk, hu]
    · simp [applyOp, pickClue, pickClueH, h]
  | showOp a =>
    by_cases h : a = room.hostSocketId
    · cases ha : room.active with
      | none => simp [applyOp, showAnswer, showAnswerH, h, ha]
      | some ac => simp [applyOp, showAnswer, showAnswerH, h, ha]
    · simp [applyOp, showAnswer, showAnswerH, h]
  | closeOp a mk =>
    by_cases h : a = room.hostSocketId <;>
      simp [applyOp, closeClue, closeClueH, h]
  | buzzOp a =>
    by_cases hm : room.mode ≠ "BUZZER"
    · simp [applyOp, buzz, hm]
    · by_cases ha : room.active = none
      · simp [applyOp, buzz, hm, ha]
      · by_cases hl : room.buzzer.locked = true
        · simp [applyOp, buzz, hm, ha, hl]
        · cases hp : mapGet room.players a with
          | none => simp [applyOp, buzz, hm, ha, hl, hp]
          | some p =>
            refine Or.inr (Or.inr ⟨⟨p.name, p.teamIndex⟩, ?_⟩)
            simp [applyOp, buzz, hm, ha, hl, hp]
  | unlockOp a =>
    by_cases h : a = room.hostSocketId <;>
      simp [applyOp, unlockBuzzer, unlockBuzzerH, h]
  | scoreOp a ti d =>
    by_cases h : a = room.hostSocketId <;>
      simp [applyOp, scoreTeam, scoreH, h]
  | renameOp a ti nm =>
    by_cases h : a = room.hostSocketId <;>
      simp [applyOp, renameTeam, renameTeamH, h]
  | setTurnOp a ti =>
    by_cases h : a = room.hostSocketId <;>
      simp [applyOp, setTurn, setTurnH, h]
  | nextTurnOp a =>
    by_cases h : a = room.hostSocketId <;>
      simp [applyOp, nextTurn, nextTurnH, h]
  | newRoundOp a ks g =>
    by_cases h : a = room.hostSocketId
    · cases ks <;> simp [applyOp, newRound, newRoundH, h]
    · simp [applyOp, newRound, newRoundH, h]
  | joinOp p nm ti => simp [applyOp, joinPlayer]
  | removeOp p => simp [applyOp, removePlayer]

theorem foldl_preserves_buzzInv (ops : List Op) :
    ∀ r : Room, (r.buzzer.winner ≠ none → r.buzzer.locked = true) →
      ((ops.foldl applyOp r).buzzer.winner ≠ none →
        (ops.foldl applyOp r).buzzer.locked = true) := by
  induction ops with
  | nil => intro r hr; exact hr
  | cons op t ih =>
    intro r hr
    simp only [List.foldl_cons]
    apply ih
    intro hw
    rcases buzzer_after_applyOp r op with hc | hc | ⟨w, hc⟩
    · rw [hc] at hw ⊢
      exact hr hw
    · rw [hc] at hw
      exact absurd rfl hw
    · rw [hc]

/-- Claim C9: in every room state reachable from room creation by any
sequence of operations, a non-null `buzzer.winner` implies `buzzer.locked`
is true. -/
theorem buzzer_winner_implies_locked (hostId : String) (hostName mode : Option String)
    (code : String) (game : Game) (ops : List Op)
    (h : (ops.foldl applyOp (initRoom hostId hostName mode code game)).buzzer.winner
        ≠ none) :
    (ops.foldl applyOp (initRoom hostId hostName mode code game)).buzzer.locked
      = true := by
  refine foldl_preserves_buzzInv ops _ (fun hw => ?_) h
  simp [initRoom] at hw

/-- Claim C9 witness: host creates the sample board, a player joins, the host
opens clue (0,0), the player buzzes — the winner is set and the buzzer is
locked. -/
theorem buzzer_winner_implies_locked_witness :
    (([Op.joinOp "p1" none 1, Op.pickOp "h" 0 0, Op.buzzOp "p1"].foldl applyOp
        (initRoom "h" (some "Host") none "ABCDE" sampleGame)).buzzer.locked
      = true) :=
  buzzer_winner_implies_locked "h" (some "Host") none "ABCDE" sampleGame
    [Op.joinOp "p1" none 1, Op.pickOp "h" 0 0, Op.buzzOp "p1"] (by decide)

/-- Claim C10: a join whose connection-id is already registered overwrites
the stored entry in place — the player's name and team index become the newly
supplied (normalised) values — and the number of registered players is
unchanged. -/
theorem rejoin_overwrites (room : Room) (pid : String) (nm : Option String)
    (ti : Int) (old : Player) (h : mapGet room.players pid = some old) :
    mapGet (joinPlayer pid room nm ti).players pid =
      some ⟨pid, normPlayerName nm, clampTeam ti⟩
    ∧ (joinPlayer pid room nm ti).players.length = room.players.length := by
  constructor
  · simp [joinPlayer, mapGet_mapSet_self]
  · exact length_mapSet_of_mem _ _ _ (by simp [h])

/-- Claim C10 witness: player `p1` (registered as Alice on team 1 in the
sample room) rejoins with a new name and team; the entry is replaced and the
player count stays at 2. -/
theorem rejoin_overwrites_witness :
    mapGet (joinPlayer "p1" sampleRoom (some "Al2") 2).players "p1" =
      some ⟨"p1", normPlayerName (some "Al2"), clampTeam 2⟩
    ∧ (joinPlayer "p1" sampleRoom (some "Al2") 2).players.length =
        sampleRoom.players.length :=
  rejoin_overwrites sampleRoom "p1" (some "Al2") 2 ⟨"p1", "Alice", 1⟩ (by decide)

end Jeopardy
